import Mathlib

/- Shallow embedding of the Simple-JS-Blockchain repository: the Transaction,
Block and Blockchain classes of blockchain.js, the tamper driver of main.js,
and interface models of the two external collaborators (SHA-256 hashing and
secp256k1 signatures).  JavaScript dynamic-value behaviour that the source
actually exercises (undefined fields in string concatenation, null sentinels,
truthiness tests, strings iterated by for..of) is modelled explicitly where it
is observable. -/

namespace SJB

/-- Hexadecimal digit character: 0-9 then a-f (the hash's hex output alphabet). -/
def hexChar (n : Nat) : Char :=
  if n < 10 then Char.ofNat (48 + n) else Char.ofNat (87 + n)

/-- Big-endian hex digits: k digits of n (most significant last into acc), zero padded. -/
def toHexAux : Nat → Nat → List Char → List Char
  | 0, _, acc => acc
  | Nat.succ k, n, acc => toHexAux k (n / 16) (hexChar (n % 16) :: acc)

/-- 64-hex-character rendering of a 256-bit value, zero padded: the textual
width of a SHA-256 digest. -/
def toHex64 (n : Nat) : String :=
  String.mk (toHexAux 64 n [])

/-- Modelled from the spec: the hashing collaborator (the crypto-js SHA256
module) is external to the core; spec section 6 requires only "any
cryptographic hash with negligible collision probability and a fixed-width
hexadecimal (or equivalent fixed-alphabet) textual representation".  It is
modelled as a 256-bit iterated multiply-add fold over the input characters,
printed as exactly 64 hex characters. -/
def SHA256 (s : String) : String :=
  toHex64 (s.data.foldl (fun h c => (h * 1099511628211 + c.toNat) % 2 ^ 256) 143)

/-- Modelled from the spec: the key-pair collaborator (the elliptic library,
secp256k1) is external to the core; spec section 6 specifies an opaque signing
capability exposing a public component and a deterministic sign operation. -/
structure ECKey where
  pub : String
  priv : String
  deriving DecidableEq

/-- Modelled from the spec: symbolic signature scheme - a signature is a tag
tying the signer's public key to the signed digest, so verification succeeds
exactly for the digest that was signed under the claimed public key. -/
def ecSign (key : ECKey) (digest : String) : String :=
  "sig(" ++ key.pub ++ "," ++ digest ++ ")"

/-- Modelled from the spec: verification side of the symbolic signature scheme. -/
def ecVerify (publicKey digest signature : String) : Bool :=
  signature == "sig(" ++ publicKey ++ "," ++ digest ++ ")"

/-- A JavaScript value in a Block's timestamp slot: mined blocks get Date.now()
(a number), the genesis block gets the string "01/01/2020". -/
inductive TsVal where
  | num (n : Int)
  | str (s : String)
  deriving DecidableEq

/-- JS coercion of (undefined + timestamp), the first two terms of the block
hash serialization: this.index is undefined on Block, so undefined + number is
NaN (rendered "NaN" once a string is appended), while undefined + string
concatenates to "undefined" followed by the string. -/
def undefPlusTs : TsVal → String
  | .num _ => "NaN"
  | .str s => "undefined" ++ s

/-- Transaction (blockchain.js).  fromAddress is a public-key string or null
(the mining-reward sentinel, modelled as none); the constructor also stores a
Date.now() timestamp; the signature field is absent until signTransaction runs. -/
structure Transaction where
  fromAddress : Option String
  toAddress : String
  amount : Int
  timestamp : Int
  signature : Option String
  deriving DecidableEq

/-- Transaction constructor: stores the three fields plus Date.now() (passed
explicitly as now); signature starts absent. -/
def Transaction.new (fromAddress : Option String) (toAddress : String) (amount : Int) (now : Int) : Transaction :=
  { fromAddress := fromAddress, toAddress := toAddress, amount := amount,
    timestamp := now, signature := none }

/-- JS rendering of fromAddress inside string concatenation: null prints "null". -/
def fromRepr : Option String → String
  | none => "null"
  | some s => s

/-- Transaction.calculateHash: SHA256(fromAddress + toAddress + amount). -/
def Transaction.calculateHash (tx : Transaction) : String :=
  SHA256 (fromRepr tx.fromAddress ++ tx.toAddress ++ Int.repr tx.amount)

/-- The exact Error message of the unauthorized-signer throw. -/
def unauthorizedSignerMsg : String :=
  "You cannot sign transactions for other wallets, only your own."

/-- The exact Error message of the missing-signature throw. -/
def missingSignatureMsg : String := "No signature in this transaction"

/-- The exact Error message of the incomplete-transaction throw. -/
def incompleteTransactionMsg : String := "Transaction must include from and to address"

/-- The exact Error message of the invalid-transaction throw. -/
def invalidTransactionMsg : String := "Cannot add invalid transaction to the chain"

/-- Transaction.signTransaction: throws when the key's public component is not
strictly equal to fromAddress (a null fromAddress differs from every string);
otherwise stores the signature over calculateHash(). -/
def Transaction.signTransactionE (tx : Transaction) (signingKey : ECKey) : Except String Transaction :=
  match tx.fromAddress with
  | some f =>
    if signingKey.pub = f then
      Except.ok { tx with signature := some (ecSign signingKey tx.calculateHash) }
    else
      Except.error unauthorizedSignerMsg
  | none => Except.error unauthorizedSignerMsg

/-- Transaction.isValid: reward transactions (null fromAddress) are
unconditionally valid; a missing or empty signature throws; otherwise the
signature is verified against the content hash and the boolean is returned. -/
def Transaction.isValidE (tx : Transaction) : Except String Bool :=
  match tx.fromAddress with
  | none => Except.ok true
  | some f =>
    match tx.signature with
    | none => Except.error missingSignatureMsg
    | some sig =>
      if sig = "" then Except.error missingSignatureMsg
      else Except.ok (ecVerify f tx.calculateHash sig)

/-- The transactions slot of a Block: minePendingTransactions stores an array of
Transaction, but createGenesisBlock stores the plain string "Genesis block". -/
inductive TxData where
  | str (s : String)
  | txs (l : List Transaction)
  deriving DecidableEq

/-- Block (blockchain.js). -/
structure Block where
  timestamp : TsVal
  transactions : TxData
  previousHash : String
  hash : String
  nonce : Nat
  deriving DecidableEq

/-- The string actually fed to SHA256 by Block.calculateHash, which reads
this.index + this.timestamp + this.previousHash + JSON.stringify(this.data) + this.nonce.
Block has no index or data field, so this is undefined + timestamp (NaN for the
numeric timestamps of mined blocks), then previousHash, then "undefined"
(JSON.stringify(undefined) is undefined, appended to a string as "undefined"),
then the rendering of this.nonce.  The transactions field is never hashed. -/
def blockSerial (timestamp : TsVal) (previousHash : String) (nonceRepr : String) : String :=
  undefPlusTs timestamp ++ previousHash ++ "undefined" ++ nonceRepr

/-- Block.calculateHash at the block's current field values. -/
def Block.calculateHash (b : Block) : String :=
  SHA256 (blockSerial b.timestamp b.previousHash (Nat.repr b.nonce))

/-- Block constructor: the source assigns this.hash = this.calculateHash()
BEFORE this.nonce = 0, so the stored hash serializes the still-undefined nonce
as "undefined".  The JS previousHash parameter defaults to the empty string;
callers that omit it pass "" here. -/
def Block.new (timestamp : TsVal) (transactions : TxData) (previousHash : String) : Block :=
  { timestamp := timestamp, transactions := transactions, previousHash := previousHash,
    hash := SHA256 (blockSerial timestamp previousHash "undefined"), nonce := 0 }

/-- JS s.substring(0, d): the first min(d, length) characters. -/
def jsSubstring0 (s : String) (d : Nat) : List Char :=
  s.data.take d

/-- Array(d + 1).join("0"): the string of d zero characters. -/
def zeroTarget (d : Nat) : List Char :=
  List.replicate d '0'

/-- Block.mineBlock, fuel-indexed: while the first difficulty characters of
hash differ from the zero string, increment nonce and recompute hash with the
new nonce; none models exhausting the fuel before the loop exits. -/
def Block.mineBlockFuel (b : Block) (difficulty : Nat) : Nat → Option Block
  | 0 => none
  | Nat.succ fuel =>
    if jsSubstring0 b.hash difficulty = zeroTarget difficulty then some b
    else
      Block.mineBlockFuel
        { b with nonce := b.nonce + 1,
                 hash := Block.calculateHash { b with nonce := b.nonce + 1 } }
        difficulty fuel

/-- The for..of scan of Block.hasValidTransactions over an array of
transactions: a thrown error propagates, a false verdict stops the scan. -/
def validateTxList : List Transaction → Except String Bool
  | [] => Except.ok true
  | tx :: rest =>
    match tx.isValidE with
    | Except.error e => Except.error e
    | Except.ok false => Except.ok false
    | Except.ok true => validateTxList rest

/-- Block.hasValidTransactions.  When the transactions slot holds a string (the
genesis layout), for..of yields single-character strings on which tx.isValid is
not a function: a nonempty string throws a TypeError, an empty one passes. -/
def Block.hasValidTransactionsE (b : Block) : Except String Bool :=
  match b.transactions with
  | TxData.str s =>
    if s = "" then Except.ok true
    else Except.error "TypeError: tx.isValid is not a function"
  | TxData.txs l => validateTxList l

/-- JSON string quoting; none of the strings this repository serializes need
escape sequences. -/
def jsonQuote (s : String) : String := "\"" ++ s ++ "\""

/-- JSON.stringify of a Transaction, fields in assignment order; an absent
signature (undefined) is omitted, a null fromAddress prints null. -/
def Transaction.json (tx : Transaction) : String :=
  "\x7b\"fromAddress\":" ++ (match tx.fromAddress with | none => "null" | some s => jsonQuote s)
    ++ ",\"toAddress\":" ++ jsonQuote tx.toAddress
    ++ ",\"amount\":" ++ Int.repr tx.amount
    ++ ",\"timestamp\":" ++ Int.repr tx.timestamp
    ++ (match tx.signature with | none => "" | some s => ",\"signature\":" ++ jsonQuote s)
    ++ "\x7d"

/-- JSON.stringify of the timestamp slot. -/
def TsVal.json : TsVal → String
  | .num n => Int.repr n
  | .str s => jsonQuote s

/-- JSON.stringify of the transactions slot. -/
def TxData.json : TxData → String
  | .str s => jsonQuote s
  | .txs l => "[" ++ String.intercalate "," (l.map Transaction.json) ++ "]"

/-- JSON.stringify of a Block, fields in constructor assignment order:
timestamp, transactions, previousHash, hash, nonce. -/
def Block.json (b : Block) : String :=
  "\x7b\"timestamp\":" ++ b.timestamp.json
    ++ ",\"transactions\":" ++ b.transactions.json
    ++ ",\"previousHash\":" ++ jsonQuote b.previousHash
    ++ ",\"hash\":" ++ jsonQuote b.hash
    ++ ",\"nonce\":" ++ Nat.repr b.nonce ++ "\x7d"

/-- Blockchain (blockchain.js). -/
structure Blockchain where
  chain : List Block
  difficulty : Nat
  pendingTransactions : List Transaction
  miningReward : Int
  deriving DecidableEq

/-- Blockchain.createGenesisBlock: new Block("01/01/2020", "Genesis block", "0"). -/
def Blockchain.createGenesisBlock : Block :=
  Block.new (TsVal.str "01/01/2020") (TxData.str "Genesis block") "0"

/-- Blockchain constructor: chain = [genesis], difficulty = 2, empty pending
pool, miningReward = 100. -/
def Blockchain.new : Blockchain :=
  { chain := [Blockchain.createGenesisBlock], difficulty := 2,
    pendingTransactions := [], miningReward := 100 }

/-- Blockchain.getLatestBlock: chain[chain.length - 1]. -/
def Blockchain.getLatestBlock (bc : Blockchain) : Option Block :=
  bc.chain.getLast?

/-- Blockchain.minePendingTransactions, fuel-indexed through the mining loop;
now stands for the Date.now() calls.  The new Block is built as
new Block(Date.now(), this.pendingTransactions) with NO third argument, so its
previousHash is the constructor default, the empty string.  Afterwards the
pending pool is replaced by a single fresh reward transaction. -/
def Blockchain.minePendingTransactionsFuel (bc : Blockchain) (miningRewardAddress : String) (now : Int) (fuel : Nat) : Option Blockchain :=
  match (Block.new (TsVal.num now)
      (TxData.txs (bc.pendingTransactions ++ [Transaction.new none miningRewardAddress bc.miningReward now]))
      "").mineBlockFuel bc.difficulty fuel with
  | none => none
  | some mined =>
    some { bc with chain := bc.chain ++ [mined],
                   pendingTransactions := [Transaction.new none miningRewardAddress bc.miningReward now] }

/-- JS truthiness test !x on the fromAddress slot: null and "" are falsy. -/
def jsFalsyAddr : Option String → Bool
  | none => true
  | some s => s == ""

/-- Blockchain.addTransaction, state-passing: the returned Blockchain is the
object after the call - unchanged whenever a throw occurs, since the push onto
pendingTransactions is the last statement of the method. -/
def Blockchain.addTransactionS (bc : Blockchain) (tx : Transaction) : Blockchain × Except String Unit :=
  if jsFalsyAddr tx.fromAddress || tx.toAddress == "" then
    (bc, Except.error incompleteTransactionMsg)
  else
    match tx.isValidE with
    | Except.error e => (bc, Except.error e)
    | Except.ok false => (bc, Except.error invalidTransactionMsg)
    | Except.ok true =>
      ({ bc with pendingTransactions := bc.pendingTransactions ++ [tx] }, Except.ok ())

/-- The two strict-equality address tests of getBalanceOfAddress for one
transaction: a null fromAddress never strictly equals a string address. -/
def txBalanceDelta (address : String) (tx : Transaction) : Int :=
  (if tx.fromAddress = some address then -tx.amount else 0)
    + (if tx.toAddress = address then tx.amount else 0)

/-- Per-block balance contribution.  When the transactions slot is a string
(genesis), for..of yields characters whose fromAddress/toAddress properties are
undefined and never strictly equal a string address, contributing nothing. -/
def Block.balanceContribution (address : String) (b : Block) : Int :=
  match b.transactions with
  | TxData.str _ => 0
  | TxData.txs l => l.foldl (fun acc tx => acc + txBalanceDelta address tx) 0

/-- Blockchain.getBalanceOfAddress: full replay of the chain. -/
def Blockchain.getBalanceOfAddress (bc : Blockchain) (address : String) : Int :=
  bc.chain.foldl (fun acc b => acc + b.balanceContribution address) 0

/-- The i = 1.. loop of isChainValid, carrying chain[i-1] as prev. -/
def chainLoopE : Block → List Block → Except String Bool
  | _, [] => Except.ok true
  | prev, cur :: rest =>
    match cur.hasValidTransactionsE with
    | Except.error e => Except.error e
    | Except.ok false => Except.ok false
    | Except.ok true =>
      if cur.hash ≠ cur.calculateHash then Except.ok false
      else if cur.previousHash ≠ prev.hash then Except.ok false
      else chainLoopE cur rest

/-- Blockchain.isChainValid: the genesis block is compared by JSON.stringify
against a fresh createGenesisBlock(); each later block is checked for
transaction validity, hash integrity and linkage; a throw escaping
hasValidTransactions propagates out of isChainValid. -/
def Blockchain.isChainValidE (bc : Blockchain) : Except String Bool :=
  match bc.chain with
  | [] => Except.ok false
  | g :: rest =>
    if Blockchain.createGenesisBlock.json ≠ g.json then Except.ok false
    else chainLoopE g rest

/-- The tampering performed by main.js:
blockchain.chain[1].transactions[0].amount = v. -/
def tamperFirstTxAmount (bc : Blockchain) (v : Int) : Blockchain :=
  match bc.chain with
  | g :: b1 :: rest =>
    match b1.transactions with
    | TxData.txs (t0 :: ts) =>
      { bc with chain := g :: { b1 with transactions := TxData.txs ({ t0 with amount := v } :: ts) } :: rest }
    | _ => bc
  | _ => bc

/-- Placeholder block for list lookups with a default. -/
def dummyBlock : Block := Block.new (TsVal.num 0) (TxData.txs []) ""

/- Concrete demo values used by the witnesses: a key pair, the signed
5-coin transaction of the main.js scenario, and the ledger holding it. -/

/-- Demo key pair for the witnesses. -/
def demoKey : ECKey := { pub := "pkA", priv := "skA" }

/-- The main.js scenario transaction after signing: 5 coins from pkA to pkB. -/
def demoTx : Transaction :=
  { fromAddress := some "pkA", toAddress := "pkB", amount := 5, timestamp := 3,
    signature := some (ecSign demoKey (Transaction.calculateHash (Transaction.new (some "pkA") "pkB" 5 3))) }

/-- The ledger after submitting demoTx to a fresh Blockchain. -/
def demoL1 : Blockchain :=
  { Blockchain.new with pendingTransactions := [demoTx] }

section Lemmas

/-- toHexAux produces exactly k digits on top of the accumulator. -/
theorem toHexAux_length (k : Nat) : ∀ (n : Nat) (acc : List Char),
    (toHexAux k n acc).length = k + acc.length := by
  induction k with
  | zero => intro n acc; simp [toHexAux]
  | succ k ih =>
    intro n acc
    rw [toHexAux, ih]
    simp
    omega

/-- The hash model always renders 64 characters. -/
theorem SHA256_length (s : String) : (SHA256 s).length = 64 := by
  show (toHexAux 64 _ []).length = 64
  rw [toHexAux_length]
  rfl

/-- A hash is never the empty string (its hex rendering has width 64). -/
theorem SHA256_ne_empty (s : String) : SHA256 s ≠ "" := by
  intro h
  have hl := congrArg String.length h
  rw [SHA256_length] at hl
  exact absurd hl (by decide)

/-- A produced signature is never the empty string. -/
theorem ecSign_ne_empty (k : ECKey) (d : String) : ecSign k d ≠ "" := by
  intro h
  have hl := congrArg String.length h
  rw [show ecSign k d = "sig(" ++ k.pub ++ "," ++ d ++ ")" from rfl,
      String.length_append, String.length_append, String.length_append,
      String.length_append,
      show String.length "sig(" = 4 from rfl,
      show String.length "," = 1 from rfl,
      show String.length ")" = 1 from rfl,
      show String.length "" = 0 from rfl] at hl
  omega

/-- The mining loop only rewrites nonce and hash: timestamp, transactions and
previousHash survive mining unchanged. -/
theorem mineBlockFuel_some_fields (d : Nat) : ∀ (fuel : Nat) (b b' : Block),
    b.mineBlockFuel d fuel = some b' →
    b'.timestamp = b.timestamp ∧ b'.transactions = b.transactions ∧
      b'.previousHash = b.previousHash := by
  intro fuel
  induction fuel with
  | zero => intro b b' h; simp [Block.mineBlockFuel] at h
  | succ fuel ih =>
    intro b b' h
    rw [Block.mineBlockFuel] at h
    by_cases hc : jsSubstring0 b.hash d = zeroTarget d
    · rw [if_pos hc] at h
      cases h
      exact ⟨rfl, rfl, rfl⟩
    · rw [if_neg hc] at h
      simpa using ih _ _ h

/-- Postcondition of the mining loop: on success the returned hash passes the
difficulty prefix test, and the block either is the untouched input (the stale
constructor hash already passed) or carries hash = calculateHash() at its
final nonce. -/
theorem mineBlockFuel_some_post (d : Nat) : ∀ (fuel : Nat) (b b' : Block),
    b.mineBlockFuel d fuel = some b' →
    jsSubstring0 b'.hash d = zeroTarget d ∧
      (b' = b ∨ b'.hash = b'.calculateHash) := by
  intro fuel
  induction fuel with
  | zero => intro b b' h; simp [Block.mineBlockFuel] at h
  | succ fuel ih =>
    intro b b' h
    rw [Block.mineBlockFuel] at h
    by_cases hc : jsSubstring0 b.hash d = zeroTarget d
    · rw [if_pos hc] at h
      cases h
      exact ⟨hc, Or.inl rfl⟩
    · rw [if_neg hc] at h
      obtain ⟨h1, h2⟩ := ih _ _ h
      refine ⟨h1, Or.inr ?_⟩
      rcases h2 with h2 | h2
      · subst h2; rfl
      · exact h2

/-- Structure of a successful minePendingTransactions call: the chain grows by
one mined block whose transactions are the submitted pool plus the reward
transaction, whose previousHash is the empty string (the omitted constructor
argument), and whose timestamp is Date.now(); the pool is reset to a single
fresh reward transaction. -/
theorem minePendingTransactionsFuel_some (bc : Blockchain) (addr : String)
    (now : Int) (fuel : Nat) (bc' : Blockchain)
    (h : bc.minePendingTransactionsFuel addr now fuel = some bc') :
    ∃ mined : Block,
      bc' = { bc with chain := bc.chain ++ [mined],
                      pendingTransactions := [Transaction.new none addr bc.miningReward now] }
      ∧ mined.transactions =
          TxData.txs (bc.pendingTransactions ++ [Transaction.new none addr bc.miningReward now])
      ∧ mined.previousHash = ""
      ∧ mined.timestamp = TsVal.num now := by
  unfold Blockchain.minePendingTransactionsFuel at h
  rcases hm : (Block.new (TsVal.num now)
      (TxData.txs (bc.pendingTransactions ++ [Transaction.new none addr bc.miningReward now]))
      "").mineBlockFuel bc.difficulty fuel with _ | mined
  · rw [hm] at h
    simp at h
  · rw [hm] at h
    obtain ⟨ht, htx, hph⟩ := mineBlockFuel_some_fields _ _ _ _ hm
    refine ⟨mined, ?_, ?_, ?_, ?_⟩
    · exact (Option.some.inj h).symm
    · simpa [Block.new] using htx
    · simpa [Block.new] using hph
    · simpa [Block.new] using ht

/-- Signing one's own transaction succeeds and stores the signature over the
content hash. -/
theorem signTransactionE_own (K : ECKey) (B : String) (a t : Int) :
    (Transaction.new (some K.pub) B a t).signTransactionE K =
      Except.ok { fromAddress := some K.pub, toAddress := B, amount := a, timestamp := t,
                  signature := some (ecSign K (SHA256 (K.pub ++ B ++ Int.repr a))) } := by
  simp [Transaction.signTransactionE, Transaction.new, Transaction.calculateHash, fromRepr]

/-- A successful addTransaction call appends the transaction to the pool and
changes nothing else. -/
theorem addTransactionS_ok (bc bc' : Blockchain) (tx : Transaction)
    (h : bc.addTransactionS tx = (bc', Except.ok ())) :
    bc' = { bc with pendingTransactions := bc.pendingTransactions ++ [tx] } := by
  unfold Blockchain.addTransactionS at h
  by_cases hc : (jsFalsyAddr tx.fromAddress || tx.toAddress == "") = true
  · rw [if_pos hc] at h
    exact absurd (congrArg Prod.snd h) (by simp)
  · rw [if_neg hc] at h
    rcases hv : tx.isValidE with e | bv
    · rw [hv] at h
      exact absurd (congrArg Prod.snd h) (by simp)
    · rw [hv] at h
      cases bv
      · exact absurd (congrArg Prod.snd h) (by simp)
      · exact (congrArg Prod.fst h).symm

/-- A transaction that is a reward (null sender) or carries a nonempty
signature makes isValid return a boolean instead of throwing. -/
theorem isValidE_ok_of_signed (tx : Transaction)
    (h : tx.fromAddress ≠ none → ∃ s, tx.signature = some s ∧ s ≠ "") :
    ∃ r, tx.isValidE = Except.ok r := by
  unfold Transaction.isValidE
  rcases hf : tx.fromAddress with _ | f
  · exact ⟨true, rfl⟩
  · obtain ⟨s, hs, hne⟩ := h (by simp [hf])
    rw [hs]
    exact ⟨ecVerify f tx.calculateHash s, by simp [hne]⟩

/-- The for..of validity scan returns a boolean when every transaction in the
list is a reward or carries a nonempty signature. -/
theorem validateTxList_ok (l : List Transaction)
    (h : ∀ tx ∈ l, tx.fromAddress ≠ none → ∃ s, tx.signature = some s ∧ s ≠ "") :
    ∃ r, validateTxList l = Except.ok r := by
  induction l with
  | nil => exact ⟨true, rfl⟩
  | cons tx rest ih =>
    obtain ⟨r, hr⟩ := isValidE_ok_of_signed tx (h tx (by simp))
    obtain ⟨r2, hr2⟩ := ih (fun t ht => h t (by simp [ht]))
    cases r
    · exact ⟨false, by simp [validateTxList, hr]⟩
    · exact ⟨r2, by simp [validateTxList, hr, hr2]⟩

/-- The block-linkage loop of isChainValid returns a boolean whenever every
scanned block stores a transaction array whose members are rewards or carry
nonempty signatures. -/
theorem chainLoopE_ok (rest : List Block)
    (h : ∀ b ∈ rest, ∃ l, b.transactions = TxData.txs l ∧
          ∀ tx ∈ l, tx.fromAddress ≠ none → ∃ s, tx.signature = some s ∧ s ≠ "") :
    ∀ prev, ∃ r, chainLoopE prev rest = Except.ok r := by
  induction rest with
  | nil => intro prev; exact ⟨true, rfl⟩
  | cons cur rest2 ih =>
    intro prev
    obtain ⟨l, hl, hsig⟩ := h cur (by simp)
    obtain ⟨r, hr⟩ := validateTxList_ok l hsig
    have hval : cur.hasValidTransactionsE = Except.ok r := by
      simp [Block.hasValidTransactionsE, hl, hr]
    cases r
    · exact ⟨false, by simp [chainLoopE, hval]⟩
    · obtain ⟨r2, hr2⟩ := ih (fun b hb => h b (by simp [hb])) cur
      by_cases h1 : cur.hash ≠ cur.calculateHash
      · exact ⟨false, by simp [chainLoopE, hval, h1]⟩
      · by_cases h2 : cur.previousHash ≠ prev.hash
        · exact ⟨false, by simp [chainLoopE, hval, h1, h2]⟩
        · exact ⟨r2, by simp [chainLoopE, hval, h1, h2, hr2]⟩

/-- When the head of the chain is an untouched genesis block, the JSON
comparison succeeds and isChainValid reduces to the linkage loop. -/
theorem isChainValidE_genesis_head (bc : Blockchain) (rest : List Block)
    (hc : bc.chain = Blockchain.createGenesisBlock :: rest) :
    bc.isChainValidE = chainLoopE Blockchain.createGenesisBlock rest := by
  unfold Blockchain.isChainValidE
  rw [hc]
  simp

/-- A block whose previousHash does not match its predecessor's hash makes the
linkage loop answer false, provided its transaction scan returns a boolean
(whatever boolean it is). -/
theorem chainLoopE_unlinked (prev m : Block) (rest : List Block)
    (hph : m.previousHash ≠ prev.hash)
    (hok : ∃ r, m.hasValidTransactionsE = Except.ok r) :
    chainLoopE prev (m :: rest) = Except.ok false := by
  obtain ⟨r, hr⟩ := hok
  cases r
  · simp [chainLoopE, hr]
  · by_cases h1 : m.hash ≠ m.calculateHash
    · simp [chainLoopE, hr, h1]
    · simp [chainLoopE, hr, h1, hph]

/-- A chain of genesis followed by a block whose previousHash does not match
the genesis hash is rejected (with a boolean, given that the block's
transaction scan returns a boolean). -/
theorem isChainValidE_unlinked (bc : Blockchain) (m : Block) (rest : List Block)
    (hc : bc.chain = Blockchain.createGenesisBlock :: m :: rest)
    (hph : m.previousHash ≠ Blockchain.createGenesisBlock.hash)
    (hok : ∃ r, m.hasValidTransactionsE = Except.ok r) :
    bc.isChainValidE = Except.ok false := by
  rw [isChainValidE_genesis_head bc (m :: rest) hc]
  exact chainLoopE_unlinked _ _ _ hph hok

end Lemmas

section Claims

set_option maxRecDepth 1000000

/- Claim C1 -/

/-- A block holding one transaction of amount 15. -/
def c1BlockA : Block :=
  Block.new (TsVal.num 3) (TxData.txs [Transaction.new (some "aa") "bb" 15 0]) "0"

/-- The same block except the transaction amount's first character changed
(15 became 75). -/
def c1BlockB : Block :=
  Block.new (TsVal.num 3) (TxData.txs [Transaction.new (some "aa") "bb" 75 0]) "0"

/-- C1: the claim that calculateHash() covers the transactions and reacts to
any single-character change in them FAILS on the code: calculateHash reads
this.index and this.data, which do not exist on Block (the field is named
transactions), so two blocks whose only difference is a transaction amount
hash identically.  The code contradicts its own doc comment ("using all of
its data"). -/
theorem c1_calculateHash_ignores_transactions :
    c1BlockA.transactions ≠ c1BlockB.transactions ∧
      c1BlockA.calculateHash = c1BlockB.calculateHash := by
  exact ⟨by decide, rfl⟩

/- Claim C5 -/

/-- A freshly constructed block (numeric timestamp 7, empty transaction array,
previousHash "0"), as mineBlock receives it. -/
def freshBlock7 : Block := Block.new (TsVal.num 7) (TxData.txs []) "0"

/-- C5 counterexample: at difficulty 0 the mining loop exits immediately (the
empty prefix always matches the empty zero string), returning the block whose
stored hash is the stale constructor hash - serialized with the
still-undefined nonce - which differs from calculateHash() at the stored
nonce 0.  So "the stored hash equals calculateHash() at that nonce" fails. -/
theorem c5_difficulty_zero_stale_hash :
    freshBlock7.mineBlockFuel 0 1 = some freshBlock7 ∧
      freshBlock7.hash ≠ freshBlock7.calculateHash := by
  exact ⟨rfl, by decide⟩

/-- C5 amended: whenever the fuelled mining loop returns a block, that block's
hash passes the difficulty prefix test (its first difficulty characters are
all the zero character, which also forces difficulty to be at most the hash
width), and the block either is the unmodified input - the stale constructor
hash already satisfied the test, as always happens at difficulty 0 - or
carries hash = calculateHash() at its final nonce. -/
theorem c5_mine_post_amended (d fuel : Nat) (b b' : Block)
    (h : b.mineBlockFuel d fuel = some b') :
    jsSubstring0 b'.hash d = zeroTarget d ∧
      (b' = b ∨ b'.hash = b'.calculateHash) :=
  mineBlockFuel_some_post d fuel b b' h

/-- C5 amended witness: the difficulty-0 run on the fresh block. -/
theorem c5_mine_post_amended_witness :
    jsSubstring0 freshBlock7.hash 0 = zeroTarget 0 ∧
      (freshBlock7 = freshBlock7 ∨ freshBlock7.hash = freshBlock7.calculateHash) :=
  c5_mine_post_amended 0 1 freshBlock7 freshBlock7 rfl

/- Claim C7 -/

/-- C7: a freshly constructed Ledger validates: the genesis JSON comparison
succeeds against a fresh createGenesisBlock() and the block loop is empty. -/
theorem c7_fresh_ledger_valid : Blockchain.new.isChainValidE = Except.ok true := rfl

/- Claim C8 -/

/-- C8: the claim that a freshly constructed block stores hash =
calculateHash() at nonce 0 FAILS on the code: the constructor assigns
this.hash = this.calculateHash() BEFORE this.nonce = 0, so the stored hash
serializes the nonce slot as "undefined" while a recomputation serializes it
as "0".  The nonce itself is 0 as claimed. -/
theorem c8_constructor_hash_stale :
    freshBlock7.nonce = 0 ∧ freshBlock7.hash ≠ freshBlock7.calculateHash := by
  exact ⟨rfl, by decide⟩

/- Claim C9 -/

/-- C9: the full case analysis of addTransaction: an empty (or null) sender or
an empty recipient yields the IncompleteTransaction error; otherwise a throw
from tx.isValid() propagates unchanged; otherwise a false verdict yields the
InvalidTransaction error; otherwise the transaction is appended to the pool -
and in every failure case the ledger (in particular the pending pool) is
returned unchanged, because the push is the method's last statement. -/
theorem c9_addTransaction_cases (bc : Blockchain) (tx : Transaction) :
    ((bc.addTransactionS tx).2 ≠ Except.ok () → (bc.addTransactionS tx).1 = bc)
    ∧ (jsFalsyAddr tx.fromAddress = true ∨ tx.toAddress = "" →
        (bc.addTransactionS tx).2 = Except.error incompleteTransactionMsg)
    ∧ (jsFalsyAddr tx.fromAddress = false → tx.toAddress ≠ "" →
        ∀ e, tx.isValidE = Except.error e →
          (bc.addTransactionS tx).2 = Except.error e)
    ∧ (jsFalsyAddr tx.fromAddress = false → tx.toAddress ≠ "" →
        tx.isValidE = Except.ok false →
          (bc.addTransactionS tx).2 = Except.error invalidTransactionMsg)
    ∧ (jsFalsyAddr tx.fromAddress = false → tx.toAddress ≠ "" →
        tx.isValidE = Except.ok true →
          bc.addTransactionS tx =
            ({ bc with pendingTransactions := bc.pendingTransactions ++ [tx] },
              Except.ok ())) := by
  by_cases hc : (jsFalsyAddr tx.fromAddress || tx.toAddress == "") = true
  · have hres : bc.addTransactionS tx = (bc, Except.error incompleteTransactionMsg) := by
      unfold Blockchain.addTransactionS
      rw [if_pos hc]
    rw [hres]
    refine ⟨fun _ => rfl, fun _ => rfl, ?_, ?_, ?_⟩
    · intro hf ht e _
      rw [Bool.or_eq_true] at hc
      rcases hc with hc | hc
      · rw [hf] at hc; cases hc
      · exact absurd (by simpa using hc) ht
    · intro hf ht _
      rw [Bool.or_eq_true] at hc
      rcases hc with hc | hc
      · rw [hf] at hc; cases hc
      · exact absurd (by simpa using hc) ht
    · intro hf ht _
      rw [Bool.or_eq_true] at hc
      rcases hc with hc | hc
      · rw [hf] at hc; cases hc
      · exact absurd (by simpa using hc) ht
  · have hstep : bc.addTransactionS tx =
        (match tx.isValidE with
          | Except.error e => (bc, Except.error e)
          | Except.ok false => (bc, Except.error invalidTransactionMsg)
          | Except.ok true =>
            ({ bc with pendingTransactions := bc.pendingTransactions ++ [tx] },
              Except.ok ())) := by
      unfold Blockchain.addTransactionS
      rw [if_neg hc]
    rcases hv : tx.isValidE with e | bv
    · rw [hv] at hstep
      rw [hstep]
      refine ⟨fun _ => rfl, ?_, ?_, ?_, ?_⟩
      · intro hbad
        exact absurd (by rcases hbad with hb | hb <;> simp [hb]) hc
      · intro _ _ e2 he2
        cases he2
        rfl
      · intro _ _ he2
        simp at he2
      · intro _ _ he2
        simp at he2
    · cases bv
      · rw [hv] at hstep
        rw [hstep]
        refine ⟨fun _ => rfl, ?_, ?_, ?_, ?_⟩
        · intro hbad
          exact absurd (by rcases hbad with hb | hb <;> simp [hb]) hc
        · intro _ _ e2 he2
          simp at he2
        · intro _ _ _
          rfl
        · intro _ _ he2
          simp at he2
      · rw [hv] at hstep
        rw [hstep]
        refine ⟨fun hne => absurd rfl hne, ?_, ?_, ?_, ?_⟩
        · intro hbad
          exact absurd (by rcases hbad with hb | hb <;> simp [hb]) hc
        · intro _ _ e2 he2
          simp at he2
        · intro _ _ he2
          simp at he2
        · intro _ _ _
          rfl

/-- A transaction with an empty recipient, as in the C9 scenario. -/
def c9Tx : Transaction := Transaction.new (some "pkA") "" 5 0

/-- C9 witness: submitting a transaction with an empty recipient to a fresh
ledger yields the IncompleteTransaction error and leaves the ledger (hence the
pool) unchanged. -/
theorem c9_addTransaction_cases_witness :
    (Blockchain.new.addTransactionS c9Tx).2 = Except.error incompleteTransactionMsg ∧
      (Blockchain.new.addTransactionS c9Tx).1 = Blockchain.new := by
  have h := c9_addTransaction_cases Blockchain.new c9Tx
  have he := h.2.1 (Or.inr rfl)
  exact ⟨he, h.1 (by rw [he]; exact fun hx => Except.noConfusion hx)⟩

/- Claim C10 -/

/-- C10: every transaction whose sender is the null reward sentinel is rejected
by addTransaction with the IncompleteTransaction error, leaving the ledger
unchanged: null fails the truthiness test on fromAddress, so reward
transactions can never enter the pool through the public interface. -/
theorem c10_reward_sender_rejected (bc : Blockchain) (tx : Transaction)
    (h : tx.fromAddress = none) :
    bc.addTransactionS tx = (bc, Except.error incompleteTransactionMsg) := by
  unfold Blockchain.addTransactionS
  rw [h]
  rfl

/-- A reward-shaped transaction: null sender, 100 coins to pkA. -/
def c10Tx : Transaction := Transaction.new none "pkA" 100 0

/-- C10 witness: the reward-shaped transaction is rejected on a fresh ledger. -/
theorem c10_reward_sender_rejected_witness :
    Blockchain.new.addTransactionS c10Tx = (Blockchain.new, Except.error incompleteTransactionMsg) :=
  c10_reward_sender_rejected Blockchain.new c10Tx rfl

/- Claim C2 -/

/-- C2: the claim that minePendingTransactions links the new block to
latestBlock().hash FAILS on the code: the block is constructed as
new Block(Date.now(), this.pendingTransactions) with the previousHash
argument omitted, so it defaults to the empty string.  Evaluated on a fresh
ledger: the mined block's previousHash is "" while the genesis hash is a
64-character digest, so the linkage invariant is broken and isChainValid
rejects the freshly mined, untampered chain. -/
theorem c2_minePendingTransactions_unlinked :
    ∃ bc', Blockchain.new.minePendingTransactionsFuel "miner" 7 2 = some bc' ∧
      bc'.chain.length = 2 ∧
      (bc'.chain.getD 1 dummyBlock).previousHash = "" ∧
      (bc'.chain.getD 0 dummyBlock).hash ≠ "" ∧
      (bc'.chain.getD 1 dummyBlock).previousHash ≠ (bc'.chain.getD 0 dummyBlock).hash ∧
      bc'.isChainValidE = Except.ok false := by
  refine ⟨(Blockchain.new.minePendingTransactionsFuel "miner" 7 2).getD Blockchain.new,
    rfl, rfl, rfl, by decide, by decide, rfl⟩

/- Claim C3 -/

/-- A block holding one unsigned non-reward transaction. -/
def c3BadBlock : Block :=
  Block.new (TsVal.num 5) (TxData.txs [Transaction.new (some "x") "y" 1 0]) "0"

/-- A chain whose second block holds the unsigned transaction. -/
def c3BadChain : Blockchain :=
  { Blockchain.new with chain := [Blockchain.createGenesisBlock, c3BadBlock] }

/-- C3 counterexample: the claim that hasValidTransactions() and isChainValid()
always return a boolean and never raise FAILS on the code: neither method
catches anything, so the MissingSignature error thrown by Transaction.isValid()
on an unsigned non-reward transaction aborts the scan and propagates out of
both methods. -/
theorem c3_isChainValid_raises_on_unsigned :
    c3BadChain.isChainValidE = Except.error missingSignatureMsg ∧
      c3BadBlock.hasValidTransactionsE = Except.error missingSignatureMsg :=
  ⟨rfl, rfl⟩

/-- C3 amended: isChainValid() returns a boolean (never raises) provided every
block after the genesis stores a transaction array in which every non-reward
transaction carries a nonempty signature; an unsigned non-reward transaction
instead makes Transaction.isValid() throw MissingSignature, and the error
propagates uncaught through hasValidTransactions() and isChainValid(). -/
theorem c3_isChainValid_boolean_when_signed (bc : Blockchain)
    (h : ∀ b ∈ bc.chain.tail, ∃ l, b.transactions = TxData.txs l ∧
          ∀ tx ∈ l, tx.fromAddress ≠ none → ∃ s, tx.signature = some s ∧ s ≠ "") :
    ∃ r, bc.isChainValidE = Except.ok r := by
  rcases hc : bc.chain with _ | ⟨g, rest⟩
  · exact ⟨false, by unfold Blockchain.isChainValidE; rw [hc]⟩
  · rw [hc] at h
    by_cases hg : Blockchain.createGenesisBlock.json ≠ g.json
    · exact ⟨false, by unfold Blockchain.isChainValidE; rw [hc]; simp [hg]⟩
    · obtain ⟨r, hr⟩ := chainLoopE_ok rest (by simpa using h) g
      exact ⟨r, by unfold Blockchain.isChainValidE; rw [hc]; simp [hg, hr]⟩

/-- C3 amended witness: the fresh ledger has no post-genesis blocks, so the
hypothesis holds vacuously and validation returns a boolean. -/
theorem c3_isChainValid_boolean_when_signed_witness :
    ∃ r, Blockchain.new.isChainValidE = Except.ok r :=
  c3_isChainValid_boolean_when_signed Blockchain.new (by simp [Blockchain.new])

/- Claim C4 -/

/-- C4: after the signed-transfer-and-mine scenario of main.js, overwriting
chain[1].transactions[0].amount with any other value leaves isValid() false
(Except.ok false - the signed transaction cannot throw): the tampered
transaction's signature verification can only fail, and even on the branch
where it would pass, the hash or linkage check fails (the mined block's
previousHash is "" while the genesis hash is not, see C2), so every branch of
the scan returns false. -/
theorem c4_tampered_amount_invalid (K : ECKey) (B : String) (t1 t2 : Int)
    (fuel : Nat) (v : Int) (tx1 : Transaction) (L1 L2 : Blockchain)
    (hv : v ≠ 5)
    (hsign : (Transaction.new (some K.pub) B 5 t1).signTransactionE K = Except.ok tx1)
    (hadd : Blockchain.new.addTransactionS tx1 = (L1, Except.ok ()))
    (hmine : L1.minePendingTransactionsFuel K.pub t2 fuel = some L2) :
    (tamperFirstTxAmount L2 v).isChainValidE = Except.ok false := by
  rw [signTransactionE_own] at hsign
  cases hsign
  have hL1 := addTransactionS_ok _ _ _ hadd
  subst hL1
  obtain ⟨mined, hL2, hmtx, hmph, hmts⟩ := minePendingTransactionsFuel_some _ _ _ _ _ hmine
  subst hL2
  simp only [Blockchain.new, List.nil_append, List.singleton_append] at hmtx ⊢
  simp only [tamperFirstTxAmount, hmtx]
  refine isChainValidE_unlinked _ _ _ rfl ?_ ?_
  · simp only [hmph]
    exact Ne.symm (SHA256_ne_empty _)
  · show ∃ r, validateTxList _ = Except.ok r
    apply validateTxList_ok
    intro tx htx
    simp only [List.mem_cons, List.not_mem_nil, or_false] at htx
    rcases htx with rfl | rfl
    · intro _
      exact ⟨ecSign K (SHA256 (K.pub ++ B ++ Int.repr 5)), rfl, ecSign_ne_empty K _⟩
    · intro hbad
      exact absurd rfl hbad

/-- C4 witness: the concrete demo scenario, tampering the amount from 5 to 2
exactly as main.js does. -/
theorem c4_tampered_amount_invalid_witness :
    (tamperFirstTxAmount ((demoL1.minePendingTransactionsFuel demoKey.pub 7 2).getD Blockchain.new) 2).isChainValidE
      = Except.ok false :=
  c4_tampered_amount_invalid demoKey "pkB" 3 7 2 2 demoTx demoL1
    ((demoL1.minePendingTransactionsFuel demoKey.pub 7 2).getD Blockchain.new)
    (by decide) rfl rfl rfl

/- Claim C6 -/

/-- C6: after the signed-transfer-and-mine scenario, the sender's balance is
miningReward - 5 (the reward transaction included in the mined block credits
100, the transfer debits 5) and the recipient's balance is 5; the fresh reward
transaction placed in the reset pool is not counted, because balances replay
only the chain. -/
theorem c6_balances_after_scenario (K : ECKey) (B : String) (t1 t2 : Int)
    (fuel : Nat) (tx1 : Transaction) (L1 L2 : Blockchain)
    (hAB : K.pub ≠ B)
    (hsign : (Transaction.new (some K.pub) B 5 t1).signTransactionE K = Except.ok tx1)
    (hadd : Blockchain.new.addTransactionS tx1 = (L1, Except.ok ()))
    (hmine : L1.minePendingTransactionsFuel K.pub t2 fuel = some L2) :
    L2.getBalanceOfAddress K.pub = L2.miningReward - 5 ∧
      L2.getBalanceOfAddress B = 5 := by
  rw [signTransactionE_own] at hsign
  cases hsign
  have hL1 := addTransactionS_ok _ _ _ hadd
  subst hL1
  obtain ⟨mined, hL2, hmtx, hmph, hmts⟩ := minePendingTransactionsFuel_some _ _ _ _ _ hmine
  subst hL2
  simp only [Blockchain.new, List.nil_append] at hmtx ⊢
  constructor
  · simp [Blockchain.getBalanceOfAddress, Block.balanceContribution, hmtx,
      txBalanceDelta, Transaction.new, Blockchain.createGenesisBlock, Block.new,
      Ne.symm hAB]
  · simp [Blockchain.getBalanceOfAddress, Block.balanceContribution, hmtx,
      txBalanceDelta, Transaction.new, Blockchain.createGenesisBlock, Block.new,
      hAB]

/-- C6 witness: the concrete demo scenario; pkA ends with 95 = 100 - 5 coins
and pkB with 5. -/
theorem c6_balances_after_scenario_witness :
    ((demoL1.minePendingTransactionsFuel demoKey.pub 7 2).getD Blockchain.new).getBalanceOfAddress demoKey.pub
        = ((demoL1.minePendingTransactionsFuel demoKey.pub 7 2).getD Blockchain.new).miningReward - 5 ∧
      ((demoL1.minePendingTransactionsFuel demoKey.pub 7 2).getD Blockchain.new).getBalanceOfAddress "pkB" = 5 :=
  c6_balances_after_scenario demoKey "pkB" 3 7 2 demoTx demoL1
    ((demoL1.minePendingTransactionsFuel demoKey.pub 7 2).getD Blockchain.new)
    (by decide) rfl rfl rfl

end Claims

end SJB
